import Mathlib

/-!
Verification development for the `improver` ensemble-copula-coupling
repository.  The Python sources under `lib/improver` are embedded shallowly:

* `improver.percentile.PercentileConverter` (percentile.py) over a cube model;
* the `percentiles_to_realizations` CLI wiring (cli/percentiles_to_realizations.py);
* `improver.argparser.ArgParser` and `improver.argparser.safe_eval` (argparser.py);
* the `ensemble_copula_coupling` plugins `ResamplePercentiles` and
  `EnsembleReordering`, whose module is not part of the provided sources and is
  therefore modelled from the specification text (marked below).

Machine floats are modelled as exact rationals; the claims under study concern
structure (field counts, coordinate values, permutations, error policy), not
floating-point rounding.
-/

namespace Improver

/-- A Python value, as far as the type dispatch in this repository needs:
`isinstance(x, (basestring, iris.coords.Coord))` in `PercentileConverter.__init__`
distinguishes strings and coordinate objects from lists, numbers and `None`. -/
inductive PyValue where
  | str (s : String)
  | coord (name : String)
  | list (xs : List PyValue)
  | int (n : Int)
  | none

/-- The check `isinstance(collapse_coord, (basestring, iris.coords.Coord))`. -/
def PyValue.isStrOrCoord : PyValue → Bool
  | .str _ => true
  | .coord _ => true
  | _ => false

/-- The coordinate name an argument resolves to, when iris would accept it as
a single coordinate specification. -/
def PyValue.coordNameOf : PyValue → Option String
  | .str s => some s
  | .coord n => some n
  | _ => Option.none

/-- A named coordinate axis with its points (`iris.coords.Coord`). -/
structure Coord where
  name : String
  points : List ℚ
deriving DecidableEq

/-- An iris cube, restricted to what `percentile.py` touches: the axis being
collapsed is the leading data dimension (as in the repository's tests, where
`realization` is dimension 0), the remaining axes are carried as metadata, and
`data` is member-major: `data[i]` is the slice for collapse-axis index `i`
over the flattened remaining grid points. -/
structure Cube where
  leadCoord : Coord
  restCoords : List Coord
  data : List (List ℚ)
deriving DecidableEq

/-- The iris aggregators used by `PercentileConverter.process`. -/
inductive Aggregator where
  | percentile (percent : List ℚ)
  | min
  | max
  | mean
  | stdDev
deriving DecidableEq

/-- Minimum of a member list (`iris.analysis.MIN` pointwise). -/
def listMin : List ℚ → ℚ
  | [] => 0
  | x :: xs => xs.foldl min x

/-- Maximum of a member list (`iris.analysis.MAX` pointwise). -/
def listMax : List ℚ → ℚ
  | [] => 0
  | x :: xs => xs.foldl max x

/-- Arithmetic mean of a member list (`iris.analysis.MEAN` pointwise). -/
def listMean (v : List ℚ) : ℚ := v.sum / v.length

/-- Sample variance of a member list.  `iris.analysis.STD_DEV` computes the
square root of this quantity; the square root is irrational in general, so the
model records the radicand.  No claim under study inspects the numeric data of
the standard-deviation field, only its position in the returned list. -/
def sampleVariance (v : List ℚ) : ℚ :=
  if v.length ≤ 1 then 0
  else (v.map (fun x => (x - listMean v) ^ 2)).sum / ((v.length : ℚ) - 1)

/-- Percentile of a member list with linear interpolation between order
statistics (`iris.analysis.PERCENTILE`, numpy's default scheme): for sorted
values `s` of length `n` and percent `p`, interpolate at fractional index
`(n - 1) * p / 100`.  Matches the repository test, where members `[0, 12, 24]`
at percent `5` give `1.2`. -/
def npPercentile (p : ℚ) (v : List ℚ) : ℚ :=
  let s := List.insertionSort (· ≤ ·) v
  let n := s.length
  if n = 0 then 0
  else
    let hq : ℚ := ((n : ℚ) - 1) * p / 100
    let i : Nat := Nat.min (n - 1) (Int.toNat ⌊hq⌋)
    let lo := s.getD i 0
    let hi := s.getD (Nat.min (i + 1) (n - 1)) 0
    lo + (hq - (i : ℚ)) * (hi - lo)

/-- Per-point member lists of a cube: column `pt` collects the value of every
member at grid point `pt`. -/
def Cube.columns (c : Cube) : List (List ℚ) := c.data.transpose

/-- Embedding of `cube.collapsed(coord, aggregator)`: collapse the leading axis.  `none`
when the argument does not name the cube's collapse axis (iris raises a
`CoordinateNotFoundError` there).  A `PERCENTILE` collapse replaces the axis
by a `percentile_over_<name>` axis carrying the requested percent values, as
observed in the repository's `PercentileConverter` tests; a scalar aggregation
removes the axis (the scalar coordinate's remaining metadata is dropped by
the model, no claim inspects it). -/
def Cube.collapsed (c : Cube) (coordSpec : PyValue) (agg : Aggregator) :
    Option Cube :=
  match coordSpec.coordNameOf with
  | Option.none => Option.none
  | some nm =>
    if c.leadCoord.name = nm then
      match agg with
      | .percentile ps =>
          some { leadCoord := ⟨"percentile_over_" ++ nm, ps⟩,
                 restCoords := c.restCoords,
                 data := ps.map (fun p => c.columns.map (npPercentile p)) }
      | .min =>
          some { leadCoord := ⟨nm, []⟩, restCoords := c.restCoords,
                 data := [c.columns.map listMin] }
      | .max =>
          some { leadCoord := ⟨nm, []⟩, restCoords := c.restCoords,
                 data := [c.columns.map listMax] }
      | .mean =>
          some { leadCoord := ⟨nm, []⟩, restCoords := c.restCoords,
                 data := [c.columns.map listMean] }
      | .stdDev =>
          some { leadCoord := ⟨nm, []⟩, restCoords := c.restCoords,
                 data := [c.columns.map sampleVariance] }
    else Option.none

/-- Source constant `PercentileConverter.PERCENTILES` (percentile.py line 46). -/
def PERCENTILES : List ℚ := [5, 10, 20, 25, 30, 40, 50, 60, 70, 75, 80, 90, 95]

/-- The class `improver.percentile.PercentileConverter`. -/
structure PercentileConverter where
  collapse_coord : PyValue

namespace PercentileConverter

/-- Embedding of `PercentileConverter.__init__`: store the argument, then raise `ValueError`
unless it is a string or an `iris.coords.Coord`. -/
def init (collapse_coord : PyValue) : Except String PercentileConverter :=
  if collapse_coord.isStrOrCoord then .ok ⟨collapse_coord⟩
  else .error "collapse_coord does not specify a single coordinate."

/-- Embedding of `PercentileConverter.process_percentiles`. -/
def process_percentiles (pc : PercentileConverter) (cube : Cube) :
    Option Cube :=
  cube.collapsed pc.collapse_coord (.percentile PERCENTILES)

/-- Embedding of `PercentileConverter.process`: the percentiles cube followed by the MIN,
MAX, MEAN and STD_DEV collapses, in the order the source appends them. -/
def process (pc : PercentileConverter) (cube : Cube) : Option (List Cube) := do
  let p ← pc.process_percentiles cube
  let mn ← cube.collapsed pc.collapse_coord .min
  let mx ← cube.collapsed pc.collapse_coord .max
  let me ← cube.collapsed pc.collapse_coord .mean
  let sd ← cube.collapsed pc.collapse_coord .stdDev
  return [p, mn, mx, me, sd]

/-- The operation `cube.collapsed` as a state transformer on the input cube: it reads the
cube and returns it unchanged alongside the new cube.  Used to make the
no-mutation claim about `process` expressible. -/
def collapsedSt (coordSpec : PyValue) (agg : Aggregator) (c : Cube) :
    Cube × Option Cube :=
  (c, c.collapsed coordSpec agg)

/-- Embedding of `PercentileConverter.process` with the input cube threaded explicitly
through every operation that reads it, so the final state of the input is an
object of the theorem rather than a side condition. -/
def processSt (pc : PercentileConverter) (c0 : Cube) :
    Cube × Option (List Cube) :=
  let s1 := collapsedSt pc.collapse_coord (.percentile PERCENTILES) c0
  let s2 := collapsedSt pc.collapse_coord .min s1.1
  let s3 := collapsedSt pc.collapse_coord .max s2.1
  let s4 := collapsedSt pc.collapse_coord .mean s3.1
  let s5 := collapsedSt pc.collapse_coord .stdDev s4.1
  (s5.1, do
    let p ← s1.2
    let mn ← s2.2
    let mx ← s3.2
    let me ← s4.2
    let sd ← s5.2
    return [p, mn, mx, me, sd])

end PercentileConverter

/-- Example ensemble cube: `realization` axis with three members over one grid
point, as in the repository's test fixture. -/
def cubeEx : Cube :=
  { leadCoord := ⟨"realization", [0, 1, 2]⟩,
    restCoords := [⟨"latitude", [0]⟩],
    data := [[1], [2], [3]] }

namespace EnsembleReordering

/-- Modelled from the spec: the class `EnsembleReordering` lives in
`improver.ensemble_copula_coupling.ensemble_copula_coupling`, which is not
among the provided sources (only its caller in
`cli/percentiles_to_realizations.py` is).  Per §4.4 of the specification, with
`random_ordering=False` the raw members are ranked by value with ties broken
by original member index (a stable sort): member `k` strictly precedes member
`j` when its value is smaller, or the values are equal and `k` comes first. -/
def prec (raw : List ℚ) (k j : Nat) : Prop :=
  raw.getD k 0 < raw.getD j 0 ∨ (raw.getD k 0 = raw.getD j 0 ∧ k < j)

instance (raw : List ℚ) (k j : Nat) : Decidable (prec raw k j) :=
  inferInstanceAs (Decidable (_ ∨ _))

/-- Modelled from the spec: the rank position of raw member `j` is the number
of members strictly preceding it in the stable value order. -/
def rank (raw : List ℚ) (j : Nat) : Nat :=
  ((Finset.range raw.length).filter (fun k => prec raw k j)).card

/-- Modelled from the spec: §4.4 step algorithm at one grid/time point — sort
the post-processed member values ascending and assign `sorted_values[i]` to
the output slot whose raw-forecast rank position is `i`. -/
def reorderPoint (post raw : List ℚ) : List ℚ :=
  let sorted := List.insertionSort (· ≤ ·) post
  (List.range raw.length).map (fun j => sorted.getD (rank raw j) 0)

/-- Modelled from the spec: `EnsembleReordering.process` treats every
grid/time point identically and independently; the fields are given
point-major (for each point, the list of member values at that point). -/
def process (post raw : List (List ℚ)) : List (List ℚ) :=
  List.zipWith reorderPoint post raw

end EnsembleReordering

namespace ResamplePercentiles

/-- Modelled from the spec: `ResamplePercentiles` lives in
`improver.ensemble_copula_coupling.ensemble_copula_coupling`, which is not
among the provided sources.  Per §4.2, with `quantile` sampling the target
percentiles are `n` equal-probability block centers: the k-th target is
`100 * (k + 1/2) / n` for 0-indexed `k`. -/
def quantileTargets (n : Nat) : List ℚ :=
  (List.range n).map (fun k => 100 * ((k : ℚ) + 1 / 2) / n)

/-- Modelled from the spec: monotone piecewise-linear interpolation of the
source (percentile, value) pairs, sorted by percentile, at a target
percentile; targets outside the existing percentile range are clamped to the
boundary value. -/
def interp : List (ℚ × ℚ) → ℚ → ℚ
  | [], _ => 0
  | [(_, v)], _ => v
  | (x1, v1) :: (x2, v2) :: rest, t =>
    if t ≤ x1 then v1
    else if t ≤ x2 then v1 + (t - x1) * (v2 - v1) / (x2 - x1)
    else interp ((x2, v2) :: rest) t

/-- Clipping to the nearest valid physical bound. -/
def clampToBounds (lo hi v : ℚ) : ℚ := max lo (min v hi)

/-- Modelled from the spec: the resampled values before the bounds policy is
applied — the interpolated source curve at every quantile target. -/
def resampledValues (src : List (ℚ × ℚ)) (n : Nat) : List ℚ :=
  (quantileTargets n).map (interp src)

/-- Modelled from the spec: `ResamplePercentiles.process` with `quantile`
sampling.  The iris cube packaging and the `random` sampling mode are not
modelled; the percentile axis is the list of (percentile, value) source
pairs, `lo`/`hi` are the valid physical bounds for the quantity.  Fewer than
2 source percentiles is an InvalidCube-class error; a resampled value outside
the bounds raises unless `ecc_bounds_warning` is set, in which case the value
is clipped to the nearest bound. -/
def process (ecc_bounds_warning : Bool) (lo hi : ℚ) (src : List (ℚ × ℚ))
    (no_of_percentiles : Option Nat) : Except String (List ℚ) :=
  if src.length < 2 then
    .error "the percentile coordinate must have at least two values"
  else if (resampledValues src (no_of_percentiles.getD src.length)).all
      (fun v => decide (lo ≤ v) && decide (v ≤ hi)) then
    .ok (resampledValues src (no_of_percentiles.getD src.length))
  else if ecc_bounds_warning then
    .ok ((resampledValues src (no_of_percentiles.getD src.length)).map
      (clampToBounds lo hi))
  else .error "the calculated percentiles are outside the ECC bounds range"

end ResamplePercentiles

/-- Two-percentile source curve whose upper value exceeds the probability
bound 1: the 75th percentile carries the value 3/2. -/
def srcEx : List (ℚ × ℚ) := [(25, 1 / 2), (75, 3 / 2)]

/-- One-point post-processed pseudo-realization field of the §8 scenario. -/
def postEx : List (List ℚ) := [[10, 20, 30]]

/-- One-point raw ensemble field of the §8 scenario. -/
def rawEx : List (List ℚ) := [[5, 1, 3]]

namespace PercentilesToRealizationsCLI

/-- The parsed argument namespace of `cli/percentiles_to_realizations.py`
after `parser.parse_args()`: every option of the CLI with its default. -/
structure Args where
  input_filepath : String
  output_filepath : String
  no_of_percentiles : Option Int
  sampling_method : String
  ecc_bounds_warning : Bool
  reordering : Bool
  rebadging : Bool
  raw_forecast_filepath : Option String
  random_ordering : Bool
  random_seed : Option String
  realization_numbers : Option (List String)

/-- The rejections performed before any cube is loaded:
`--reordering`/`--rebadging` form a required mutually exclusive argparse
group (both or neither present is a parse error), and main's explicit checks
(lines 137-144) call `parser.wrong_args_error` for `--realization_numbers`
with `--reordering`, and for `--raw_forecast_filepath` or `--random_ordering`
with `--rebadging`.  `--random_seed` is nowhere checked. -/
def checkArgs (a : Args) : Except String Unit :=
  if a.reordering && a.rebadging then
    .error "argument --rebadging: not allowed with argument --reordering"
  else if !a.reordering && !a.rebadging then
    .error "one of the arguments --reordering --rebadging is required"
  else if a.reordering && a.realization_numbers.isSome then
    .error "Method: reordering does not accept arguments: realization_numbers"
  else if a.rebadging &&
      (a.raw_forecast_filepath.isSome || a.random_ordering) then
    .error "Method: rebadging does not accept arguments: raw_forecast_filepath, random_ordering"
  else .ok ()

/-- Trace of cube-producing operations: the plugin classes applied by the CLI
live outside the provided sources, so a constructor records each call and its
arguments — `loaded p` stands for `load_cube(p)`, `resampled` for
`ResamplePercentiles(...).process(...)`, and so on. -/
inductive CubeT where
  | loaded (path : Option String)
  | resampled (ecc_bounds_warning : Bool) (no_of_percentiles : Option Int)
      (sampling : String) (cube : CubeT)
  | reordered (cube raw : CubeT) (random_ordering : Bool)
      (random_seed : Option String)
  | rebadged (cube : CubeT) (realization_numbers : Option (List Int))
deriving DecidableEq

/-- The external collaborators the CLI calls, each of which may raise. -/
structure Plugins where
  load : Option String → Except String CubeT
  resample : Bool → Option Int → String → CubeT → Except String CubeT
  reorder : CubeT → CubeT → Bool → Option String → Except String CubeT
  rebadge : CubeT → Option (List Int) → Except String CubeT

/-- The behaviour in which every external call succeeds and returns its own
trace term, used to read off the order in which main applies the plugins. -/
def tracePlugins : Plugins where
  load p := .ok (.loaded p)
  resample w n s c := .ok (.resampled w n s c)
  reorder c r ro rs := .ok (.reordered c r ro rs)
  rebadge c rn := .ok (.rebadged c rn)

/-- The conversion `[int(num) for num in args.realization_numbers]`: a non-integer string
raises ValueError. -/
def parseRealizationNumbers :
    Option (List String) → Except String (Option (List Int))
  | Option.none => .ok Option.none
  | some xs =>
    match xs.mapM String.toInt? with
    | some ns => .ok (some ns)
    | Option.none => .error "invalid literal for int()"

/-- The files written by `save_netcdf`, in write order. -/
abbrev World := List (String × CubeT)

/-- The `result_cube` the CLI computes before its final `save_netcdf` call:
validate the arguments, load the input, resample, then reorder (loading the
raw forecast first) or rebadge (converting the realization numbers to int
first); the first failing step aborts the run. -/
def mainResult (pl : Plugins) (a : Args) : Except String CubeT :=
  match checkArgs a with
  | .error e => .error e
  | .ok _ =>
    match pl.load (some a.input_filepath) with
    | .error e => .error e
    | .ok cube =>
      match pl.resample a.ecc_bounds_warning a.no_of_percentiles
          a.sampling_method cube with
      | .error e => .error e
      | .ok result =>
        if a.reordering then
          match pl.load a.raw_forecast_filepath with
          | .error e => .error e
          | .ok raw => pl.reorder result raw a.random_ordering a.random_seed
        else if a.rebadging then
          match parseRealizationNumbers a.realization_numbers with
          | .error e => .error e
          | .ok ns => pl.rebadge result ns
        else .ok result

/-- Embedding of `main(argv)` of `cli/percentiles_to_realizations.py` after argument
parsing: the output file is written (appended to the write log) only after
every validation and processing step has succeeded; a failing run surfaces
the error and leaves the write log untouched. -/
def mainRun (pl : Plugins) (a : Args) (w : World) :
    Except String Unit × World :=
  match mainResult pl a with
  | .error e => (.error e, w)
  | .ok c => (.ok (), w ++ [(a.output_filepath, c)])

/-- Arguments selecting `--rebadging` together with the reordering-only
sub-option `--random_seed 42`. -/
def argsRebadgeSeed : Args :=
  { input_filepath := "in.nc", output_filepath := "out.nc",
    no_of_percentiles := Option.none, sampling_method := "quantile",
    ecc_bounds_warning := false, reordering := false, rebadging := true,
    raw_forecast_filepath := Option.none, random_ordering := false,
    random_seed := some "42", realization_numbers := Option.none }

/-- Arguments supplying both `--reordering` and `--rebadging`. -/
def argsBothFlags : Args :=
  { input_filepath := "in.nc", output_filepath := "out.nc",
    no_of_percentiles := Option.none, sampling_method := "quantile",
    ecc_bounds_warning := false, reordering := true, rebadging := true,
    raw_forecast_filepath := some "raw.nc", random_ordering := false,
    random_seed := Option.none, realization_numbers := Option.none }

/-- Arguments for a successful `--reordering` run. -/
def argsReorder : Args :=
  { input_filepath := "in.nc", output_filepath := "out.nc",
    no_of_percentiles := Option.none, sampling_method := "quantile",
    ecc_bounds_warning := false, reordering := true, rebadging := false,
    raw_forecast_filepath := some "raw.nc", random_ordering := false,
    random_seed := Option.none, realization_numbers := Option.none }

/-- The written output of the successful `--reordering` run on an empty
write log. -/
def wOutReorder : World :=
  [("out.nc",
    CubeT.reordered
      (CubeT.resampled false Option.none "quantile"
        (CubeT.loaded (some "in.nc")))
      (CubeT.loaded (some "raw.nc")) false Option.none)]

end PercentilesToRealizationsCLI

namespace ArgParser

/-- An argument specification: the flag strings passed to `add_argument`.
The kwargs dictionaries (help text, defaults, metavar, types) do not
influence which option flags a parser accepts and are not modelled. -/
structure ArgSpec where
  flags : List String
deriving DecidableEq

/-- Source constant `ArgParser.COMPULSORY_ARGUMENTS` (argparser.py lines
277-286): added to all CLIs with no option to disable them. -/
def COMPULSORY_ARGUMENTS : List (String × ArgSpec) :=
  [("profile", ⟨["--profile"]⟩),
   ("profile_file", ⟨["--profile_file"]⟩)]

/-- Source constant `ArgParser.CENTRALIZED_ARGUMENTS` (argparser.py lines
72-274): the flag strings of every centralized argument, keyed by name. -/
def CENTRALIZED_ARGUMENTS : List (String × ArgSpec) :=
  [("alpha_x", ⟨["--alpha_x"]⟩),
   ("alpha_y", ⟨["--alpha_y"]⟩),
   ("coord_for_masking", ⟨["--coord_for_masking"]⟩),
   ("coords_to_collapse", ⟨["--coordinates"]⟩),
   ("degrees_as_complex", ⟨["--degrees_as_complex"]⟩),
   ("ecc_bounds_warning", ⟨["--ecc_bounds_warning"]⟩),
   ("halo_radius", ⟨["--halo_radius"]⟩),
   ("input_filepath", ⟨["input_filepath"]⟩),
   ("input_mask_collapse_weights_filepath",
     ⟨["--input_mask_collapse_weights_filepath"]⟩),
   ("input_mask_filepath", ⟨["--input_mask_filepath"]⟩),
   ("input_landsea_mask_filepath", ⟨["--input_landsea_mask_filepath"]⟩),
   ("iterations", ⟨["--iterations"]⟩),
   ("kernel", ⟨["--kernel"]⟩),
   ("no_collapse_mask", ⟨["--no-collapse-mask"]⟩),
   ("no_of_percentiles", ⟨["--no-of-percentiles"]⟩),
   ("no_recursive_filter", ⟨["--no-recursive-filter"]⟩),
   ("output_filepath", ⟨["output_filepath"]⟩),
   ("percentiles", ⟨["--percentiles"]⟩),
   ("radius", ⟨["--radius"]⟩),
   ("radius_required", ⟨["--radius"]⟩),
   ("radii_lead_times", ⟨["--radii_lead_times"]⟩),
   ("sum_or_fraction", ⟨["--sum_or_fraction"]⟩)]

/-- Source constant `ArgParser.DEFAULT_CENTRALIZED_ARG_NAMES`: the empty
tuple. -/
def DEFAULT_CENTRALIZED_ARG_NAMES : List String := []

/-- Embedding of `ArgParser.__init__` together with `add_arguments`: returns
the argument specifications the constructed parser accepts.  `None` for a
parameter stands for Python `None` (normalised to the empty list, or the
default for `central_arguments`).  A central-argument name missing from
`CENTRALIZED_ARGUMENTS` raises `KeyError` during the list comprehension; a
name in an exclusive group missing from it becomes Python `None` and raises
`TypeError` when `add_arguments` unpacks it.  On success the added argspecs
are always `compulsory + central + specific`, in that order. -/
def init (central_arguments : Option (List String))
    (specific_arguments : Option (List ArgSpec))
    (exclusive_groups : Option (List (List String))) :
    Except String (List ArgSpec) :=
  match (central_arguments.getD DEFAULT_CENTRALIZED_ARG_NAMES).mapM
      (fun nm => CENTRALIZED_ARGUMENTS.lookup nm) with
  | Option.none => .error "KeyError"
  | some central =>
    if (exclusive_groups.getD []).any
        (fun g => g.any (fun nm => (CENTRALIZED_ARGUMENTS.lookup nm).isNone))
      then .error "TypeError"
    else .ok ((COMPULSORY_ARGUMENTS.map Prod.snd) ++ central ++
      (specific_arguments.getD []))

end ArgParser

/-- A Python object, as far as `safe_eval` distinguishes: `None`, or a
member of some module, identified here by module and attribute name. -/
inductive PyObj where
  | pynone
  | member (moduleName attrName : String)
deriving DecidableEq

/-- A Python exception: `safe_eval`'s handler re-raises `TypeError`, while
Python's `eval` raises `NameError` for an undefined name. -/
inductive PyErr where
  | typeError (msg : String)
  | nameError (msg : String)
deriving DecidableEq

/-- A module's `__dict__`: attribute names mapped to objects. -/
abbrev PyModule := List (String × PyObj)

/-- Python 2 `eval` of a bare-name command string with globals
`{"__builtins__": None}` and the given locals: a name found in the locals
evaluates to its value; `None` and `__builtins__` evaluate to `None` (the
compiler treats `None` as a constant, and `__builtins__` sits in globals);
any other name raises `NameError` — with builtins disabled no builtin
function is reachable. -/
def evalName (command : String) (locals : List (String × PyObj)) :
    Except PyErr PyObj :=
  match locals.lookup command with
  | some v => .ok v
  | Option.none =>
    if command = "__builtins__" ∨ command = "None" then .ok .pynone
    else .error (.nameError ("name " ++ command ++ " is not defined"))

/-- Embedding of `improver.argparser.safe_eval` (argparser.py lines
463-496): build `safe_dict` mapping every allowed name to
`module.__dict__.get(name, None)`, evaluate the command with builtins
disabled, and re-raise any `TypeError` from `eval` with a descriptive
message.  A bare-name `eval` never raises `TypeError`, so for name commands
the handler never fires. -/
def safe_eval (command : String) (module : PyModule)
    (allowed : List String) : Except PyErr PyObj :=
  match evalName command
      (allowed.map (fun k => (k, (module.lookup k).getD .pynone))) with
  | .error (.typeError _) =>
    .error (.typeError ("Function/method/object " ++ command ++
      " not available in module."))
  | r => r

theorem collapsed_percentile_eq (c : Cube) (nm : String) (ps : List ℚ)
    (h : c.leadCoord.name = nm) :
    c.collapsed (.str nm) (.percentile ps) =
      some ⟨⟨"percentile_over_" ++ nm, ps⟩, c.restCoords,
            ps.map (fun p => c.columns.map (npPercentile p))⟩ := by
  simp [Cube.collapsed, PyValue.coordNameOf, h]

theorem collapsed_min_eq (c : Cube) (nm : String) (h : c.leadCoord.name = nm) :
    c.collapsed (.str nm) .min =
      some ⟨⟨nm, []⟩, c.restCoords, [c.columns.map listMin]⟩ := by
  simp [Cube.collapsed, PyValue.coordNameOf, h]

theorem collapsed_max_eq (c : Cube) (nm : String) (h : c.leadCoord.name = nm) :
    c.collapsed (.str nm) .max =
      some ⟨⟨nm, []⟩, c.restCoords, [c.columns.map listMax]⟩ := by
  simp [Cube.collapsed, PyValue.coordNameOf, h]

theorem collapsed_mean_eq (c : Cube) (nm : String) (h : c.leadCoord.name = nm) :
    c.collapsed (.str nm) .mean =
      some ⟨⟨nm, []⟩, c.restCoords, [c.columns.map listMean]⟩ := by
  simp [Cube.collapsed, PyValue.coordNameOf, h]

theorem collapsed_stdDev_eq (c : Cube) (nm : String) (h : c.leadCoord.name = nm) :
    c.collapsed (.str nm) .stdDev =
      some ⟨⟨nm, []⟩, c.restCoords, [c.columns.map sampleVariance]⟩ := by
  simp [Cube.collapsed, PyValue.coordNameOf, h]

/-- C1: for every ensemble cube with at least 2 members whose collapse axis is
named by the converter, `PercentileConverter.process` returns exactly the five
cubes `[percentiles, min, max, mean, stddev]` in that order, and the
percentiles cube's percentile axis carries exactly the 13 fixed values
`{5,10,20,25,30,40,50,60,70,75,80,90,95}` in strictly ascending order. -/
theorem percentileConverter_process_five_fields (name : String) (cube : Cube)
    (hname : cube.leadCoord.name = name) (_hmem : 2 ≤ cube.data.length) :
    ∃ p mn mx me sd,
      PercentileConverter.process ⟨.str name⟩ cube = some [p, mn, mx, me, sd] ∧
      cube.collapsed (.str name) (.percentile PERCENTILES) = some p ∧
      cube.collapsed (.str name) .min = some mn ∧
      cube.collapsed (.str name) .max = some mx ∧
      cube.collapsed (.str name) .mean = some me ∧
      cube.collapsed (.str name) .stdDev = some sd ∧
      p.leadCoord.points = PERCENTILES ∧
      PERCENTILES.length = 13 ∧ List.Chain' (· < ·) PERCENTILES := by
  refine ⟨_, _, _, _, _, ?_, collapsed_percentile_eq cube name PERCENTILES hname,
    collapsed_min_eq cube name hname, collapsed_max_eq cube name hname,
    collapsed_mean_eq cube name hname, collapsed_stdDev_eq cube name hname,
    rfl, rfl, ?_⟩
  · simp [PercentileConverter.process, PercentileConverter.process_percentiles,
      collapsed_percentile_eq cube name PERCENTILES hname,
      collapsed_min_eq cube name hname, collapsed_max_eq cube name hname,
      collapsed_mean_eq cube name hname, collapsed_stdDev_eq cube name hname]
  · norm_num [PERCENTILES, List.chain'_cons, List.chain'_singleton]

/-- Witness for C1: the theorem applied to the concrete three-member cube. -/
theorem percentileConverter_process_five_fields_witness :
    cubeEx.leadCoord.name = "realization" ∧ 2 ≤ cubeEx.data.length ∧
    (∃ p mn mx me sd,
      PercentileConverter.process ⟨.str "realization"⟩ cubeEx =
        some [p, mn, mx, me, sd] ∧
      cubeEx.collapsed (.str "realization") (.percentile PERCENTILES) = some p ∧
      cubeEx.collapsed (.str "realization") .min = some mn ∧
      cubeEx.collapsed (.str "realization") .max = some mx ∧
      cubeEx.collapsed (.str "realization") .mean = some me ∧
      cubeEx.collapsed (.str "realization") .stdDev = some sd ∧
      p.leadCoord.points = PERCENTILES ∧
      PERCENTILES.length = 13 ∧ List.Chain' (· < ·) PERCENTILES) :=
  ⟨rfl, by decide,
    percentileConverter_process_five_fields "realization" cubeEx rfl (by decide)⟩

/-- C7 counterexample: the argument `["realization"]` — a one-element list
naming a single axis — is rejected by `PercentileConverter.__init__` with a
`ValueError`, although it resolves to exactly one axis name (and the
constructor's own docstring advertises "str or list of str"). -/
theorem percentileConverter_init_singleton_list_rejected :
    PercentileConverter.init (.list [.str "realization"]) =
      .error "collapse_coord does not specify a single coordinate." := rfl

/-- C7 (amended): the constructor succeeds exactly when the argument is a
string or an `iris.coords.Coord` instance; every string (a single axis name)
is accepted, and every list — even a one-element list naming a single axis —
is rejected with the `ValueError`. -/
theorem percentileConverter_init_characterization (cc : PyValue) :
    ((∃ pc, PercentileConverter.init cc = .ok pc) ↔ cc.isStrOrCoord = true) ∧
    (∀ s, PercentileConverter.init (.str s) = .ok ⟨.str s⟩) ∧
    (∀ xs, PercentileConverter.init (.list xs) =
      .error "collapse_coord does not specify a single coordinate.") := by
  refine ⟨?_, fun s => rfl, fun xs => rfl⟩
  cases cc <;> simp [PercentileConverter.init, PyValue.isStrOrCoord]

/-- C8: `PercentileConverter.process` leaves the input cube unchanged (the
state-threaded run returns the input as the final state), performs exactly the
collapses of `process`, and is deterministic: identical inputs give identical
results. -/
theorem percentileConverter_process_pure (pc : PercentileConverter)
    (c c' : Cube) (h : c = c') :
    (PercentileConverter.processSt pc c).1 = c ∧
    (PercentileConverter.processSt pc c).2 = PercentileConverter.process pc c ∧
    PercentileConverter.processSt pc c = PercentileConverter.processSt pc c' := by
  subst h
  exact ⟨rfl, rfl, rfl⟩

/-- Witness for C8: the theorem applied at the concrete three-member cube. -/
theorem percentileConverter_process_pure_witness :
    (PercentileConverter.processSt ⟨.str "realization"⟩ cubeEx).1 = cubeEx ∧
    (PercentileConverter.processSt ⟨.str "realization"⟩ cubeEx).2 =
      PercentileConverter.process ⟨.str "realization"⟩ cubeEx ∧
    PercentileConverter.processSt ⟨.str "realization"⟩ cubeEx =
      PercentileConverter.processSt ⟨.str "realization"⟩ cubeEx :=
  percentileConverter_process_pure ⟨.str "realization"⟩ cubeEx cubeEx rfl

namespace EnsembleReordering

theorem prec_trans {raw : List ℚ} {a b c : Nat}
    (hab : prec raw a b) (hbc : prec raw b c) : prec raw a c := by
  rcases hab with h1 | ⟨e1, l1⟩ <;> rcases hbc with h2 | ⟨e2, l2⟩
  · exact Or.inl (h1.trans h2)
  · exact Or.inl (e2 ▸ h1)
  · exact Or.inl (e1 ▸ h2)
  · exact Or.inr ⟨e1.trans e2, l1.trans l2⟩

theorem prec_irrefl (raw : List ℚ) (a : Nat) : ¬ prec raw a a := by
  rintro (h | ⟨-, h⟩)
  · exact absurd h (lt_irrefl _)
  · exact absurd h (lt_irrefl _)

theorem prec_total {raw : List ℚ} {a b : Nat} (h : a ≠ b) :
    prec raw a b ∨ prec raw b a := by
  rcases lt_trichotomy (raw.getD a 0) (raw.getD b 0) with hlt | heq | hgt
  · exact Or.inl (Or.inl hlt)
  · rcases Nat.lt_or_ge a b with hab | hba
    · exact Or.inl (Or.inr ⟨heq, hab⟩)
    · exact Or.inr (Or.inr ⟨heq.symm, by omega⟩)
  · exact Or.inr (Or.inl hgt)

theorem rank_lt {raw : List ℚ} {j : Nat} (hj : j < raw.length) :
    rank raw j < raw.length := by
  have hsub : (Finset.range raw.length).filter (fun k => prec raw k j) ⊂
      Finset.range raw.length := by
    rw [Finset.ssubset_iff_of_subset (Finset.filter_subset _ _)]
    exact ⟨j, Finset.mem_range.mpr hj,
      fun hmem => prec_irrefl raw j (Finset.mem_filter.mp hmem).2⟩
  have := Finset.card_lt_card hsub
  rwa [Finset.card_range] at this

theorem rank_lt_rank {raw : List ℚ} {i j : Nat} (hi : i < raw.length)
    (h : prec raw i j) : rank raw i < rank raw j := by
  apply Finset.card_lt_card
  rw [Finset.ssubset_iff_of_subset]
  · exact ⟨i, Finset.mem_filter.mpr ⟨Finset.mem_range.mpr hi, h⟩,
      fun hmem => prec_irrefl raw i (Finset.mem_filter.mp hmem).2⟩
  · intro k hk
    rw [Finset.mem_filter] at hk ⊢
    exact ⟨hk.1, prec_trans hk.2 h⟩

/-- The stable rank is a permutation of the member index range. -/
theorem rank_map_perm (raw : List ℚ) :
    ((List.range raw.length).map (rank raw)).Perm (List.range raw.length) := by
  have hinj : ∀ i ∈ List.range raw.length, ∀ j ∈ List.range raw.length,
      rank raw i = rank raw j → i = j := by
    intro i hi j hj hij
    by_contra hne
    rcases @prec_total raw i j hne with h | h
    · exact absurd hij (Nat.ne_of_lt (rank_lt_rank (List.mem_range.mp hi) h))
    · exact absurd hij.symm
        (Nat.ne_of_lt (rank_lt_rank (List.mem_range.mp hj) h))
  have hnd : ((List.range raw.length).map (rank raw)).Nodup :=
    (List.nodup_range raw.length).map_on hinj
  apply List.perm_of_nodup_nodup_toFinset_eq hnd (List.nodup_range raw.length)
  apply Finset.eq_of_subset_of_card_le
  · intro x hx
    rw [List.mem_toFinset] at hx ⊢
    rcases List.mem_map.mp hx with ⟨j, hj, rfl⟩
    exact List.mem_range.mpr (rank_lt (List.mem_range.mp hj))
  · simp [List.toFinset_card_of_nodup hnd,
      List.toFinset_card_of_nodup (List.nodup_range raw.length)]

theorem map_getD_range {α : Type} (l : List α) (d : α) :
    (List.range l.length).map (fun i => l.getD i d) = l := by
  induction l with
  | nil => rfl
  | cons x xs ih =>
    rw [List.length_cons, List.range_succ_eq_map, List.map_cons]
    have hcomp : ((fun i => (x :: xs).getD i d) ∘ Nat.succ) =
        fun i => xs.getD i d := by
      funext i
      simp
    rw [List.map_map, hcomp, List.getD_cons_zero, ih]

/-- At one point, the reordered output is a permutation of the post-processed
member values: no value is created or altered. -/
theorem reorderPoint_perm (post raw : List ℚ)
    (h : post.length = raw.length) : (reorderPoint post raw).Perm post := by
  unfold reorderPoint
  have hlen : (List.insertionSort (· ≤ ·) post).length = raw.length := by
    rw [(List.perm_insertionSort (· ≤ ·) post).length_eq, h]
  have h1 : (List.range raw.length).map
        (fun j => (List.insertionSort (· ≤ ·) post).getD (rank raw j) 0) =
      ((List.range raw.length).map (rank raw)).map
        (fun i => (List.insertionSort (· ≤ ·) post).getD i 0) := by
    rw [List.map_map]
    rfl
  rw [h1]
  refine ((rank_map_perm raw).map _).trans ?_
  have h3 : (List.range raw.length).map
        (fun i => (List.insertionSort (· ≤ ·) post).getD i 0) =
      List.insertionSort (· ≤ ·) post := by
    rw [← hlen]
    exact map_getD_range _ 0
  rw [h3]
  exact List.perm_insertionSort (· ≤ ·) post

/-- The concrete scenario of §8 of the specification: raw members `[5, 1, 3]`
and sorted post-processed values `[10, 20, 30]` give output `[30, 10, 20]`. -/
theorem reorderPoint_spec_scenario :
    reorderPoint [(10 : ℚ), 20, 30] [5, 1, 3] = [30, 10, 20] := by decide

end EnsembleReordering

/-- C2: at every grid/time point of congruent post-processed and raw fields,
the values `EnsembleReordering.process` outputs at that point are a
permutation of the post-processed input values at that point — the reordering
alters no value. -/
theorem ensembleReordering_point_permutation (post raw : List (List ℚ))
    (hlen : post.length = raw.length) (i : Nat) (hi : i < post.length)
    (hpt : (post.getD i []).length = (raw.getD i []).length) :
    List.Perm ((EnsembleReordering.process post raw).getD i [])
      (post.getD i []) := by
  have hiz : i < (List.zipWith EnsembleReordering.reorderPoint post raw).length := by
    rw [List.length_zipWith]
    omega
  have hz : (EnsembleReordering.process post raw).getD i [] =
      EnsembleReordering.reorderPoint (post.getD i []) (raw.getD i []) := by
    unfold EnsembleReordering.process
    rw [List.getD_eq_getElem _ _ hiz, List.getElem_zipWith,
      List.getD_eq_getElem post ([] : List ℚ) hi,
      List.getD_eq_getElem raw ([] : List ℚ) (show i < raw.length by omega)]
  rw [hz]
  exact EnsembleReordering.reorderPoint_perm _ _ hpt

/-- Witness for C2: the theorem applied at the one-point three-member
scenario of §8. -/
theorem ensembleReordering_point_permutation_witness :
    postEx.length = rawEx.length ∧ 0 < postEx.length ∧
    (postEx.getD 0 []).length = (rawEx.getD 0 []).length ∧
    List.Perm ((EnsembleReordering.process postEx rawEx).getD 0 [])
      (postEx.getD 0 []) :=
  ⟨rfl, by decide, by decide,
    ensembleReordering_point_permutation postEx rawEx rfl 0 (by decide) (by decide)⟩

namespace ResamplePercentiles

theorem all_in_bounds_iff (lo hi : ℚ) (vs : List ℚ) :
    vs.all (fun v => decide (lo ≤ v) && decide (v ≤ hi)) = true ↔
      ¬ ∃ v ∈ vs, v < lo ∨ hi < v := by
  rw [List.all_eq_true]
  push_neg
  simp only [Bool.and_eq_true, decide_eq_true_eq, not_lt]

theorem map_clamp_eq_self (lo hi : ℚ) (vs : List ℚ)
    (h : ∀ v ∈ vs, lo ≤ v ∧ v ≤ hi) :
    vs.map (clampToBounds lo hi) = vs := by
  induction vs with
  | nil => rfl
  | cons x xs ih =>
    rw [List.map_cons, ih (fun v hv => h v (List.mem_cons_of_mem x hv))]
    have hx := h x (List.mem_cons_self x xs)
    unfold clampToBounds
    rw [min_eq_left hx.2, max_eq_right hx.1]

end ResamplePercentiles

/-- C3: for source percentiles with at least two values,
`ResamplePercentiles.process` with `ecc_bounds_warning=False` raises exactly
when some resampled value exceeds a valid physical bound, and with
`ecc_bounds_warning=True` the same input succeeds, producing the values with
every out-of-bounds value clipped to the nearest valid bound. -/
theorem resamplePercentiles_bounds_policy (lo hi : ℚ) (src : List (ℚ × ℚ))
    (n : Option Nat) (h2 : 2 ≤ src.length) :
    ((∃ e, ResamplePercentiles.process false lo hi src n = .error e) ↔
      ∃ v ∈ ResamplePercentiles.resampledValues src (n.getD src.length),
        v < lo ∨ hi < v) ∧
    ResamplePercentiles.process true lo hi src n =
      .ok ((ResamplePercentiles.resampledValues src (n.getD src.length)).map
        (ResamplePercentiles.clampToBounds lo hi)) := by
  have hg : ¬ src.length < 2 := by omega
  by_cases hall :
      (ResamplePercentiles.resampledValues src (n.getD src.length)).all
        (fun v => decide (lo ≤ v) && decide (v ≤ hi)) = true
  · have hno := (ResamplePercentiles.all_in_bounds_iff lo hi _).mp hall
    have hfa : ∀ v ∈ ResamplePercentiles.resampledValues src (n.getD src.length),
        lo ≤ v ∧ v ≤ hi := by
      intro v hv
      have := List.all_eq_true.mp hall v hv
      simpa using this
    refine ⟨⟨fun he => ?_, fun hex => absurd hex hno⟩, ?_⟩
    · obtain ⟨e, he⟩ := he
      unfold ResamplePercentiles.process at he
      rw [if_neg hg, if_pos hall] at he
      simp at he
    · unfold ResamplePercentiles.process
      rw [if_neg hg, if_pos hall,
        ResamplePercentiles.map_clamp_eq_self lo hi _ hfa]
  · have hex : ∃ v ∈ ResamplePercentiles.resampledValues src (n.getD src.length),
        v < lo ∨ hi < v := by
      by_contra hno
      exact hall ((ResamplePercentiles.all_in_bounds_iff lo hi _).mpr hno)
    refine ⟨⟨fun _ => hex, fun _ => ?_⟩, ?_⟩
    · refine ⟨"the calculated percentiles are outside the ECC bounds range", ?_⟩
      unfold ResamplePercentiles.process
      rw [if_neg hg, if_neg hall]
      rfl
    · unfold ResamplePercentiles.process
      rw [if_neg hg, if_neg hall]
      rfl

/-- The concrete source curve resamples (at its own count, 2) to the values
[1/2, 3/2]. -/
theorem srcEx_resampledValues :
    ResamplePercentiles.resampledValues srcEx
      ((Option.none : Option Nat).getD srcEx.length) = [1 / 2, 3 / 2] := by
  norm_num [ResamplePercentiles.resampledValues,
    ResamplePercentiles.quantileTargets, ResamplePercentiles.interp, srcEx,
    List.range_succ]

/-- Witness for C3: with bounds [0, 1] the concrete source curve yields the
resampled values [1/2, 3/2]; the unset flag raises, the set flag clips 3/2
down to the bound 1. -/
theorem resamplePercentiles_bounds_policy_witness :
    2 ≤ srcEx.length ∧
    (∃ e, ResamplePercentiles.process false 0 1 srcEx Option.none = .error e) ∧
    ResamplePercentiles.process true 0 1 srcEx Option.none = .ok [1 / 2, 1] := by
  have h := resamplePercentiles_bounds_policy 0 1 srcEx Option.none
    (by norm_num [srcEx])
  refine ⟨by norm_num [srcEx], h.1.mpr ⟨3 / 2, ?_, by norm_num⟩, h.2.trans ?_⟩
  · rw [srcEx_resampledValues]
    norm_num
  · rw [srcEx_resampledValues]
    norm_num [ResamplePercentiles.clampToBounds]

section CLITheorems

open PercentilesToRealizationsCLI

/-- C4 counterexample: `--rebadging --random_seed 42` passes every check the
CLI performs and the run proceeds to completion, although `--random_seed` is
a reordering-only sub-option — the claim that it is rejected is false. -/
theorem cli_random_seed_with_rebadging_accepted :
    argsRebadgeSeed.rebadging = true ∧
    argsRebadgeSeed.random_seed = some "42" ∧
    checkArgs argsRebadgeSeed = .ok () ∧
    (mainRun tracePlugins argsRebadgeSeed []).1 = .ok () :=
  ⟨rfl, rfl, rfl, rfl⟩

/-- C4 (amended): exactly one of `--reordering`/`--rebadging` must be given,
`--realization_numbers` with `--reordering` and `--raw_forecast_filepath` or
`--random_ordering` with `--rebadging` are rejected — but `--random_seed`
with `--rebadging` is accepted.  A rejected combination fails before any
field is loaded or processed: `main` returns the validation error unchanged,
for every behaviour of the external collaborators, writing nothing. -/
theorem cli_argument_validation (a : Args) (pl : Plugins) (w : World) :
    (checkArgs a = .ok () ↔
      a.reordering ≠ a.rebadging ∧
      (a.reordering = true → a.realization_numbers = Option.none) ∧
      (a.rebadging = true →
        a.raw_forecast_filepath = Option.none ∧ a.random_ordering = false)) ∧
    (∀ e, checkArgs a = .error e → mainRun pl a w = (.error e, w)) := by
  constructor
  · rcases a with ⟨inp, outp, nop, sm, ecc, reo, reb, rfp, ro, rs, rn⟩
    cases reo <;> cases reb <;> cases ro <;> cases rfp <;> cases rn <;>
      simp [checkArgs]
  · intro e he
    have hres : mainResult pl a = .error e := by
      unfold mainResult
      rw [he]
    unfold mainRun
    rw [hres]

/-- Witness for C4 (amended): both flags given is rejected by `checkArgs`
and `main` surfaces exactly that error, leaving the write log empty. -/
theorem cli_argument_validation_witness :
    checkArgs argsBothFlags =
      .error "argument --rebadging: not allowed with argument --reordering" ∧
    mainRun tracePlugins argsBothFlags [] =
      (.error "argument --rebadging: not allowed with argument --reordering",
        []) :=
  ⟨rfl, (cli_argument_validation argsBothFlags tracePlugins []).2 _ rfl⟩

/-- C5: every successful CLI run applies `ResamplePercentiles` to the loaded
input cube first, and then exactly one of `EnsembleReordering` (under
`--reordering`, on the resampled result and the loaded raw forecast) or
`RebadgePercentilesAsRealizations` (under `--rebadging`, on the resampled
result) before the output is written. -/
theorem cli_pipeline_order (a : Args) (w wOut : World)
    (h : mainRun tracePlugins a w = (.ok (), wOut)) :
    (a.reordering = true →
      wOut = w ++ [(a.output_filepath,
        CubeT.reordered
          (CubeT.resampled a.ecc_bounds_warning a.no_of_percentiles
            a.sampling_method (CubeT.loaded (some a.input_filepath)))
          (CubeT.loaded a.raw_forecast_filepath)
          a.random_ordering a.random_seed)]) ∧
    (a.rebadging = true →
      ∃ ns, parseRealizationNumbers a.realization_numbers = .ok ns ∧
        wOut = w ++ [(a.output_filepath,
          CubeT.rebadged
            (CubeT.resampled a.ecc_bounds_warning a.no_of_percentiles
              a.sampling_method (CubeT.loaded (some a.input_filepath)))
            ns)]) := by
  unfold mainRun at h
  cases hm : mainResult tracePlugins a <;> rw [hm] at h
  case error e => exact absurd h (by simp)
  case ok c =>
  have hw : wOut = w ++ [(a.output_filepath, c)] := by
    have h2 := congrArg Prod.snd h
    simpa using h2.symm
  unfold mainResult at hm
  cases hc : checkArgs a <;> rw [hc] at hm <;> simp [tracePlugins] at hm
  cases hre : a.reordering
  case false =>
    rw [hre] at hm
    simp at hm
    cases hrb : a.rebadging
    case false =>
      exact ⟨fun hx => Bool.noConfusion hx, fun hx => Bool.noConfusion hx⟩
    case true =>
      rw [hrb] at hm
      simp at hm
      cases hp : parseRealizationNumbers a.realization_numbers
      case error e2 =>
        rw [hp] at hm
        simp at hm
      case ok ns =>
        rw [hp] at hm
        simp at hm
        subst hm
        exact ⟨fun hx => Bool.noConfusion hx, fun _ => ⟨ns, rfl, hw⟩⟩
  case true =>
    rw [hre] at hm
    simp at hm
    cases hrb : a.rebadging
    case true =>
      exact absurd hc (by simp [checkArgs, hre, hrb])
    case false =>
      subst hm
      exact ⟨fun _ => hw, fun hx => Bool.noConfusion hx⟩

/-- Witness for C5: the concrete successful `--reordering` run writes the
reordered-after-resampled trace. -/
theorem cli_pipeline_order_witness :
    (argsReorder.reordering = true →
      wOutReorder = [] ++ [(argsReorder.output_filepath,
        CubeT.reordered
          (CubeT.resampled argsReorder.ecc_bounds_warning
            argsReorder.no_of_percentiles argsReorder.sampling_method
            (CubeT.loaded (some argsReorder.input_filepath)))
          (CubeT.loaded argsReorder.raw_forecast_filepath)
          argsReorder.random_ordering argsReorder.random_seed)]) ∧
    (argsReorder.rebadging = true →
      ∃ ns, parseRealizationNumbers argsReorder.realization_numbers = .ok ns ∧
        wOutReorder = [] ++ [(argsReorder.output_filepath,
          CubeT.rebadged
            (CubeT.resampled argsReorder.ecc_bounds_warning
              argsReorder.no_of_percentiles argsReorder.sampling_method
              (CubeT.loaded (some argsReorder.input_filepath)))
            ns)]) :=
  cli_pipeline_order argsReorder [] wOutReorder rfl

/-- C6: for every behaviour of the external collaborators, if any validation
or processing step of the CLI fails then no output file is written (the
write log is unchanged), and on success exactly the one output file is
appended — there is no partial-success mode. -/
theorem cli_no_partial_output (pl : Plugins) (a : Args) (w : World) :
    (∀ e, (mainRun pl a w).1 = .error e → (mainRun pl a w).2 = w) ∧
    ((mainRun pl a w).1 = .ok () →
      ∃ c, (mainRun pl a w).2 = w ++ [(a.output_filepath, c)]) := by
  unfold mainRun
  cases hm : mainResult pl a
  case error e =>
    exact ⟨fun e2 he => rfl, fun hok => absurd hok (by simp)⟩
  case ok c =>
    exact ⟨fun e2 he => absurd he (by simp), fun _ => ⟨c, rfl⟩⟩

/-- Witness for C6: the run rejected for supplying both flags leaves the
write log empty. -/
theorem cli_no_partial_output_witness :
    (mainRun tracePlugins argsBothFlags []).1 =
      .error "argument --rebadging: not allowed with argument --reordering" ∧
    (mainRun tracePlugins argsBothFlags []).2 = [] :=
  ⟨rfl, (cli_no_partial_output tracePlugins argsBothFlags []).1 _ rfl⟩

end CLITheorems

/-- C10: however an `ArgParser` is constructed — any choice of central,
specific and exclusive-group arguments — the resulting parser accepts the
`--profile` and `--profile_file` options: the compulsory arguments are in
every successfully constructed parser's argument list. -/
theorem argParser_always_accepts_profile (ca : Option (List String))
    (sa : Option (List ArgParser.ArgSpec)) (eg : Option (List (List String)))
    (specs : List ArgParser.ArgSpec)
    (h : ArgParser.init ca sa eg = .ok specs) :
    (∃ s ∈ specs, "--profile" ∈ s.flags) ∧
    (∃ s ∈ specs, "--profile_file" ∈ s.flags) := by
  unfold ArgParser.init at h
  cases hmm : (ca.getD ArgParser.DEFAULT_CENTRALIZED_ARG_NAMES).mapM
      (fun nm => ArgParser.CENTRALIZED_ARGUMENTS.lookup nm)
  case none =>
    rw [hmm] at h
    simp at h
  case some central =>
    rw [hmm] at h
    dsimp only at h
    by_cases hany : (eg.getD []).any
        (fun g => g.any
          (fun nm => (ArgParser.CENTRALIZED_ARGUMENTS.lookup nm).isNone)) = true
    · rw [if_pos hany] at h
      simp at h
    · rw [if_neg hany] at h
      simp only [Except.ok.injEq] at h
      subst h
      constructor
      · exact ⟨⟨["--profile"]⟩, by simp [ArgParser.COMPULSORY_ARGUMENTS],
          by simp⟩
      · exact ⟨⟨["--profile_file"]⟩, by simp [ArgParser.COMPULSORY_ARGUMENTS],
          by simp⟩

/-- Witness for C10: the default construction (no central, specific or
exclusive arguments) accepts both compulsory options. -/
theorem argParser_always_accepts_profile_witness :
    ArgParser.init Option.none Option.none Option.none =
      .ok [⟨["--profile"]⟩, ⟨["--profile_file"]⟩] ∧
    (∃ s ∈ ([⟨["--profile"]⟩, ⟨["--profile_file"]⟩] :
        List ArgParser.ArgSpec), "--profile" ∈ s.flags) ∧
    (∃ s ∈ ([⟨["--profile"]⟩, ⟨["--profile_file"]⟩] :
        List ArgParser.ArgSpec), "--profile_file" ∈ s.flags) :=
  ⟨rfl,
    (argParser_always_accepts_profile Option.none Option.none Option.none
      _ rfl).1,
    (argParser_always_accepts_profile Option.none Option.none Option.none
      _ rfl).2⟩

/-- C9: evaluation of `safe_eval` at the inputs where its behaviour
diverges from its docstring.  A command naming an allowed member present in
the module is returned (the claim's positive half); a command in the allowed
list but absent from the module returns Python `None` instead of raising the
documented `TypeError` (because `safe_dict` maps it to `None` via
`dict.get(k, None)`); a command outside the allowed list raises `NameError`,
not the documented `TypeError`.  No builtin or non-allowed member is ever
returned. -/
theorem safe_eval_docstring_divergence :
    safe_eval "foo" [("foo", PyObj.member "mod" "foo")] ["foo", "ghost"] =
      .ok (PyObj.member "mod" "foo") ∧
    safe_eval "ghost" [("foo", PyObj.member "mod" "foo")] ["foo", "ghost"] =
      .ok PyObj.pynone ∧
    safe_eval "bar" [("foo", PyObj.member "mod" "foo")] ["foo", "ghost"] =
      .error (PyErr.nameError "name bar is not defined") :=
  ⟨rfl, rfl, rfl⟩

end Improver
